import Mathlib

/-!
A shallow embedding, in Lean, of the monitoring-and-alerting core of the
`system-monitor-report-generator` repository, together with theorems checking
the repository's specification against the code.

Conventions of the embedding:
* JavaScript strings are modelled as `List Char` where the claims inspect
  their characters (splitting, substring search), and as `String` where they
  are opaque keys (process names in the baseline tracker, JSON object keys).
* JavaScript numbers are modelled as `ℚ` (the claims only compare them and
  do exact arithmetic on small values; no float rounding is at stake).
* An `async` call that the source wraps in `try/catch` is modelled by an
  `Option` argument (`none` = the call threw); an `await` that the source
  does NOT guard is modelled in the `Except` monad, so a thrown error
  propagates, exactly as an unhandled promise rejection does.
* A function whose effect is sending messages is modelled as returning the
  list of message bodies it sends, in order.
-/

/-! ## Baseline tracker — `src/monitor/activity.ts`
(`initializeBaseline`, `detectChanges`; module state `knownProcesses`,
`knownUSBDevices`). -/

/-- JS `new Set(list)` realised as a duplicate-free list: first occurrences,
in insertion order (`Set` iteration order). -/
def jsSet (l : List String) : List String :=
  l.foldl (fun acc x => if x ∈ acc then acc else acc ++ [x]) []

/-- `USBDevice` of activity.ts. -/
structure USBDevice where
  name : String
  vendor : String
  id : String
  type : String

/-- The module-level mutable state of activity.ts: `knownProcesses` and
`knownUSBDevices`, each a JS `Set<string>` (modelled as its element list). -/
structure BaselineState where
  knownProcesses : List String
  knownUSBDevices : List String

/-- `initializeBaseline` (activity.ts:321-330). `procs? = none` models
`si.processes()` throwing: the surrounding `try/catch` then leaves the state
as it was. `getUSBDevices` catches internally and cannot throw, so the usb
argument is a plain list. On success both known sets are replaced. -/
def initializeBaseline (st : BaselineState) (procs? : Option (List String))
    (usb : List USBDevice) : BaselineState :=
  match procs? with
  | none => st
  | some ps =>
    { knownProcesses := jsSet ps
      knownUSBDevices := jsSet (usb.map (fun d => d.id)) }

/-- `detectChanges` (activity.ts:332-369). The process block's `try/catch`
is live — `si.processes()` can throw, modelled by `procs? = none`, in which
case the block contributes no events and leaves `knownProcesses` untouched.
The USB block's `catch` is DEAD code: `getUSBDevices` (activity.ts:172-201)
wraps its whole body in `try { } catch { return [] }` and always resolves,
so the USB argument here is a plain list, and a failed USB retrieval reaches
this function as `usb = []` — which this code then diffs against and stores,
REPLACING `knownUSBDevices` with the empty set. The process loop iterates
the deduplicated `Set` (`currentProcesses`); the USB loop iterates the raw
device list. Returns `((newProcesses, newUSBDevices), new state)`. -/
def detectChanges (st : BaselineState) (procs? : Option (List String))
    (usb : List USBDevice) :
    (List String × List USBDevice) × BaselineState :=
  let procPart : List String × List String :=
    match procs? with
    | none => (([] : List String), st.knownProcesses)
    | some ps =>
      let current := jsSet ps
      (current.filter (fun p => decide (p ∉ st.knownProcesses)), current)
  let usbPart : List USBDevice × List String :=
    (usb.filter (fun d => decide (d.id ∉ st.knownUSBDevices)),
      jsSet (usb.map (fun d => d.id)))
  ((procPart.1, usbPart.1),
    { knownProcesses := procPart.2, knownUSBDevices := usbPart.2 })

/-! ## Message splitting — `src/notify/whatsapp.ts`
(`splitMessage`, `sendReportToWhatsApp`). -/

/-- JS `message.split("\n")`: always at least one piece; an empty message
gives `[""]`, a trailing newline gives a trailing `""`. -/
def splitLines : List Char → List (List Char)
  | [] => [[]]
  | c :: rest =>
    match splitLines rest with
    | [] => [[]]
    | l :: ls => if c = '\n' then [] :: l :: ls else (c :: l) :: ls

/-- JS `parts.join("\n")` (the claims' rejoining of pieces with newlines). -/
def joinLines : List (List Char) → List Char
  | [] => []
  | [l] => l
  | l :: ls => l ++ '\n' :: joinLines ls

/-- The loop of `splitMessage` (whatsapp.ts:48-64): fold over the lines with
the accumulator `currentPart`; a JS empty string is falsy, hence the
`cp = []` tests. `(currentPart + "\n" + line).length` is
`cp.length + 1 + line.length` whether or not `cp` is empty. -/
def splitMessageGo (maxLength : Nat) : List (List Char) → List Char → List (List Char)
  | [], cp => if cp = [] then [] else [cp]
  | line :: rest, cp =>
    if cp.length + 1 + line.length > maxLength then
      if cp = [] then splitMessageGo maxLength rest line
      else cp :: splitMessageGo maxLength rest line
    else
      splitMessageGo maxLength rest (if cp = [] then line else cp ++ '\n' :: line)

/-- `splitMessage` (whatsapp.ts:48-64). -/
def splitMessage (message : List Char) (maxLength : Nat) : List (List Char) :=
  splitMessageGo maxLength (splitLines message) []

/-- JS number rendering of a natural (for the `(i/N)` chunk header). -/
def natChars (n : Nat) : List Char := Nat.toDigits 10 n

/-- The chunk header `sendReportToWhatsApp` adds: `Report (i/N)\n\n`. -/
def reportHeader (i n : Nat) : List Char :=
  "Report (".data ++ natChars i ++ "/".data ++ natChars n ++ ")\n\n".data

/-- `sendReportToWhatsApp` (whatsapp.ts:28-46), as the list of message bodies
handed to `notifyViaWhatsApp`, in order: one unmodified message when the
report fits in `MAX_MESSAGE_LENGTH = 4000`, else one header-prefixed message
per part of `splitMessage report 4000`. -/
def sendReportToWhatsApp (report : List Char) : List (List Char) :=
  if report.length ≤ 4000 then [report]
  else
    let parts := splitMessage report 4000
    parts.enum.map (fun p => reportHeader (p.1 + 1) parts.length ++ p.2)

/-! ## Threshold check and alert dispatch — `src/index.ts`
(`checkAndReport`, thresholds from `config.alerts`) and
`src/report/generator.ts` (`generateAlertMessage`). -/

/-- The `alerts` section of the configuration. -/
structure AlertsConfig where
  cpuThreshold : ℚ
  ramThreshold : ℚ
  diskThreshold : ℚ

/-- Tag of the CPU threshold finding (`CPU usage: <v>%`). -/
def cpuTag : List Char := "CPU usage: ".data

/-- Tag of the RAM threshold finding. -/
def ramTag : List Char := "RAM usage: ".data

/-- Tag of the disk threshold finding. -/
def diskTag : List Char := "Disk usage: ".data

/-- The percent sign closing a threshold finding. -/
def pctTag : List Char := "%".data

/-- Does `s` start with `t`?  (Used to recognise which metric a finding
names.) -/
def startsWithTag : List Char → List Char → Bool
  | [], _ => true
  | _ :: _, [] => false
  | a :: as, b :: bs => a == b && startsWithTag as bs

/-- The threshold checks of `checkAndReport` (index.ts:458-469): one push per
metric whose usage STRICTLY exceeds its configured threshold, in the order
cpu, ram, disk. `numStr` renders a JS number into the template literal. -/
def thresholdAlerts (numStr : ℚ → List Char) (cpu ram disk : ℚ)
    (cfg : AlertsConfig) : List (List Char) :=
  (if cpu > cfg.cpuThreshold then [cpuTag ++ numStr cpu ++ pctTag] else []) ++
  (if ram > cfg.ramThreshold then [ramTag ++ numStr ram ++ pctTag] else []) ++
  (if disk > cfg.diskThreshold then [diskTag ++ numStr disk ++ pctTag] else [])

/-- The three alert categories of `generateAlertMessage` (generator.ts:181-192). -/
inductive AlertType where
  | login
  | suspicious
  | threshold

/-- The title line per category (generator.ts:185-189). -/
def alertTitle : AlertType → List Char
  | .login => "NEW LOGIN DETECTED".data
  | .suspicious => "SUSPICIOUS ACTIVITY ALERT".data
  | .threshold => "RESOURCE THRESHOLD WARNING".data

/-- `generateAlertMessage` (generator.ts:181-192); `now` stands for
`new Date().toLocaleString()`. -/
def generateAlertMessage (now : List Char) (t : AlertType) (details : List Char) :
    List Char :=
  alertTitle t ++ "\n\n".data ++ details ++ "\n\nGenerated: ".data ++ now

/-- The alert messages one `checkAndReport` cycle (index.ts:447-475) sends:
at most one `suspicious` message (all suspicious findings joined by newlines,
gated by `config.monitoring.reportOnSuspiciousActivity`) followed by at most
one `threshold` message (all threshold findings joined by newlines). -/
def checkAndReportMessages (numStr : ℚ → List Char) (now : List Char)
    (reportOnSuspiciousActivity : Bool) (suspicious : List (List Char))
    (cpu ram disk : ℚ) (cfg : AlertsConfig) : List (List Char) :=
  (if reportOnSuspiciousActivity && decide (suspicious.length > 0) then
    [generateAlertMessage now .suspicious (joinLines suspicious)]
  else []) ++
  (let alerts := thresholdAlerts numStr cpu ram disk cfg
   if alerts.length > 0 then
     [generateAlertMessage now .threshold (joinLines alerts)]
   else [])

/-! ## Crypto-miner check — `src/monitor/activity.ts`
(`checkSuspiciousActivity`, lines 264-296: the miner block). -/

/-- JS `s.toLowerCase()` on the ASCII process names at stake. -/
def toLowerStr (s : List Char) : List Char := s.map Char.toLower

/-- JS `s.includes(sub)`: substring containment. -/
def containsSub (sub : List Char) : List Char → Bool
  | [] => sub.isEmpty
  | c :: rest => startsWithTag sub (c :: rest) || containsSub sub rest

/-- `safeMiners` (activity.ts:275). -/
def safeMiners : List (List Char) :=
  ["tracker-miner-fs".data, "tracker-miner-fs-3".data, "tracker-miner".data,
    "SearchIndexer".data]

/-- The signature disjunction of the `cryptoMiners` filter
(activity.ts:280-288), applied to the lowercased name. -/
def minerSignatureHit (name : List Char) : Bool :=
  (containsSub "miner".data name && !containsSub "tracker".data name
      && !containsSub "searchindexer".data name)
  || containsSub "xmr".data name || containsSub "monero".data name
  || containsSub "ethminer".data name || containsSub "cgminer".data name
  || containsSub "bfgminer".data name || containsSub "nicehash".data name

/-- The `cryptoMiners` filter predicate (activity.ts:276-290): allowlisted
names are rejected first, then the signatures are tried. -/
def minerMatch (pname : List Char) : Bool :=
  let name := toLowerStr pname
  if safeMiners.any (fun safe => containsSub (toLowerStr safe) name) then false
  else minerSignatureHit name

/-- JS `array.join(sep)`. -/
def joinSep (sep : List Char) : List (List Char) → List Char
  | [] => []
  | [x] => x
  | x :: xs => x ++ sep ++ joinSep sep xs

/-- The miner block's contribution to the `suspicious` list
(activity.ts:291-295): one finding naming all matching process names, or
nothing. -/
def cryptoMinerFindings (procNames : List (List Char)) : List (List Char) :=
  let cryptoMiners := procNames.filter minerMatch
  if cryptoMiners.length > 0 then
    ["Potential crypto miner processes: ".data ++ joinSep ", ".data cryptoMiners]
  else []

/-- The miner-signature set as the specification lists it. -/
def minerSignatures : List (List Char) :=
  ["miner".data, "xmr".data, "monero".data, "ethminer".data, "cgminer".data,
    "bfgminer".data, "nicehash".data]

/-- Modelled from the claim's words, for comparison with `minerMatch`: the
lowercased name contains one of `minerSignatures` and is not matched by the
safe allowlist `safeMiners`. -/
def claimMinerMatch (pname : List Char) : Bool :=
  minerSignatures.any (fun sg => containsSub sg (toLowerStr pname)) &&
  !safeMiners.any (fun safe => containsSub (toLowerStr safe) (toLowerStr pname))

/-- The predicate `minerMatch` actually decides, written as
signature-and-allowlist: not allowlisted, and either a non-`miner` signature
hits or `miner` hits while `tracker` is absent. -/
def amendedMinerMatch (pname : List Char) : Bool :=
  let name := toLowerStr pname
  !safeMiners.any (fun safe => containsSub (toLowerStr safe) name) &&
  ((containsSub "miner".data name && !containsSub "tracker".data name)
    || containsSub "xmr".data name || containsSub "monero".data name
    || containsSub "ethminer".data name || containsSub "cgminer".data name
    || containsSub "bfgminer".data name || containsSub "nicehash".data name)

/-! ## Snapshot provider — `src/monitor/system.ts` (`getSystemStats`).
The ten `systeminformation` calls run under one `Promise.all` with NO
`try/catch`, so one rejected call rejects the whole function; each call's
result is an `Except Unit` value. Degenerate-data handling that IS in the
code: `processes.list || []`, `Array.isArray(networkInterfaces)`,
`Array.isArray(networkConnections)` (the `Option` inside). -/

/-- JS `Math.round`: nearest integer, halves toward +∞. -/
def jsRound (x : ℚ) : ℤ := ⌊x + 1 / 2⌋

/-- `Math.round(x * 100) / 100`. -/
def round2 (x : ℚ) : ℚ := (jsRound (x * 100) : ℚ) / 100

/-- `formatBytes` (system.ts:68-70). -/
def formatBytes (bytes : ℚ) : ℚ := round2 (bytes / (1024 * 1024 * 1024))

/-- `si.currentLoad()` result (the field used). -/
structure CurrentLoadData where
  currentLoad : ℚ

/-- `si.cpuTemperature()` result; `main` may be null. -/
structure CpuTempData where
  main : Option ℚ

/-- `si.cpu()` result (the fields used). -/
structure CpuInfoData where
  cores : ℚ
  manufacturer : String
  brand : String

/-- `si.mem()` result (the fields used). -/
structure MemData where
  total : ℚ
  used : ℚ
  free : ℚ

/-- One entry of `si.fsSize()`. -/
structure FsSizeEntry where
  mount : String
  size : ℚ
  used : ℚ
  use : ℚ

/-- One entry of `si.networkInterfaces()`. -/
structure NetIfaceData where
  iface : String
  ip4 : String
  ip6 : String
  mac : String
  internal : Bool

/-- One entry of `si.networkConnections()`; `process` may be missing or
empty (JS falsy), hence `Option`. -/
structure NetConnData where
  protocol : String
  localAddress : String
  localPort : ℚ
  peerAddress : String
  peerPort : ℚ
  state : String
  process : Option String

/-- One entry of `processes.list`. -/
structure ProcEntry where
  name : String
  pid : ℚ
  cpu : ℚ
  mem : ℚ

/-- `si.processes()` result; `list` may be missing (`processes.list || []`). -/
structure ProcessesData where
  all : ℚ
  running : ℚ
  list : Option (List ProcEntry)

/-- `si.osInfo()` result (the fields used). -/
structure OsInfoData where
  hostname : String
  platform : String
  distro : String
  release : String

/-- `si.time()` result (the field used). -/
structure TimeData where
  uptime : ℚ

/-- The ten awaited `systeminformation` results of `getSystemStats`
(system.ts:73-95). `Except.error` models the call rejecting; for the two
network calls the inner `none` models a resolved value that is not an array
(the `Array.isArray` guards). -/
structure SIInputs where
  currentLoad : Except Unit CurrentLoadData
  cpuTemperature : Except Unit CpuTempData
  cpu : Except Unit CpuInfoData
  mem : Except Unit MemData
  fsSize : Except Unit (List FsSizeEntry)
  networkInterfaces : Except Unit (Option (List NetIfaceData))
  networkConnections : Except Unit (Option (List NetConnData))
  processes : Except Unit ProcessesData
  osInfo : Except Unit OsInfoData
  time : Except Unit TimeData

/-- The `cpu` section of `SystemStats`. -/
structure StatsCpu where
  usage : ℚ
  temperature : Option ℚ
  cores : ℚ
  model : String

/-- The `memory` section of `SystemStats`. -/
structure StatsMemory where
  total : ℚ
  used : ℚ
  free : ℚ
  usagePercent : ℚ

/-- One mount of the `disk` section. -/
structure StatsMount where
  mount : String
  size : ℚ
  used : ℚ
  usagePercent : ℚ

/-- The `disk` section of `SystemStats`. -/
structure StatsDisk where
  total : ℚ
  used : ℚ
  free : ℚ
  usagePercent : ℚ
  mounts : List StatsMount

/-- One interface of the `network` section. -/
structure StatsIface where
  name : String
  ip4 : String
  ip6 : String
  mac : String

/-- One connection of the `network` section. -/
structure StatsConn where
  protocol : String
  localAddress : String
  localPort : ℚ
  peerAddress : String
  peerPort : ℚ
  state : String
  process : String

/-- The `network` section of `SystemStats`. -/
structure StatsNetwork where
  interfaces : List StatsIface
  connections : List StatsConn

/-- One process of the `processes` section. -/
structure StatsProc where
  name : String
  pid : ℚ
  cpu : ℚ
  memory : ℚ

/-- The `processes` section of `SystemStats`. -/
structure StatsProcesses where
  total : ℚ
  running : ℚ
  topCpu : List StatsProc
  topMemory : List StatsProc

/-- `SystemStats` (system.ts:3-66), without the wall-clock timestamp. -/
structure SystemStats where
  cpu : StatsCpu
  memory : StatsMemory
  disk : StatsDisk
  network : StatsNetwork
  processes : StatsProcesses
  uptime : ℚ
  hostname : String
  platform : String
  osInfo : String

/-- `getSystemStats` (system.ts:72-176). A rejection of any of the ten
awaited calls propagates (there is no `try/catch`); otherwise the stats are
assembled, with `processes.list || []`, the `Array.isArray` guards, the
top-5 sorts (stable, by the JS comparator `b.cpu - a.cpu` resp.
`b.mem - a.mem`), the non-internal interface filter and the
first-20-ESTABLISHED connection filter as in the source. -/
def getSystemStats (inp : SIInputs) : Except Unit SystemStats := do
  let cpuLoad ← inp.currentLoad
  let cpuTemp ← inp.cpuTemperature
  let cpuInfo ← inp.cpu
  let mem ← inp.mem
  let disk ← inp.fsSize
  let networkInterfaces ← inp.networkInterfaces
  let networkConnections ← inp.networkConnections
  let processes ← inp.processes
  let osInfo ← inp.osInfo
  let time ← inp.time
  let totalDisk := disk.foldl (fun acc d => acc + d.size) 0
  let usedDisk := disk.foldl (fun acc d => acc + d.used) 0
  let procList := processes.list.getD []
  let sortedByCpu := (procList.mergeSort (fun a b => decide (b.cpu ≤ a.cpu))).take 5
  let sortedByMem := (procList.mergeSort (fun a b => decide (b.mem ≤ a.mem))).take 5
  let netInterfaces := networkInterfaces.getD []
  let netConnections := networkConnections.getD []
  pure
    { cpu :=
        { usage := round2 cpuLoad.currentLoad
          temperature :=
            match cpuTemp.main with
            | some t => if t = 0 then none else some t
            | none => none
          cores := cpuInfo.cores
          model := cpuInfo.manufacturer ++ " " ++ cpuInfo.brand }
      memory :=
        { total := formatBytes mem.total
          used := formatBytes mem.used
          free := formatBytes mem.free
          usagePercent := round2 (mem.used / mem.total * 100) }
      disk :=
        { total := formatBytes totalDisk
          used := formatBytes usedDisk
          free := formatBytes (totalDisk - usedDisk)
          usagePercent := round2 (usedDisk / totalDisk * 100)
          mounts := disk.map (fun d =>
            { mount := d.mount
              size := formatBytes d.size
              used := formatBytes d.used
              usagePercent := round2 d.use }) }
      network :=
        { interfaces := (netInterfaces.filter (fun i => !i.internal)).map
            (fun i => { name := i.iface, ip4 := i.ip4, ip6 := i.ip6, mac := i.mac })
          connections :=
            ((netConnections.filter (fun c => c.state == "ESTABLISHED")).take 20).map
              (fun c =>
                { protocol := c.protocol
                  localAddress := c.localAddress
                  localPort := c.localPort
                  peerAddress := c.peerAddress
                  peerPort := c.peerPort
                  state := c.state
                  process :=
                    match c.process with
                    | some s => if s = "" then "unknown" else s
                    | none => "unknown" }) }
      processes :=
        { total := processes.all
          running := processes.running
          topCpu := sortedByCpu.map (fun p =>
            { name := p.name, pid := p.pid, cpu := round2 p.cpu, memory := round2 p.mem })
          topMemory := sortedByMem.map (fun p =>
            { name := p.name, pid := p.pid, cpu := round2 p.cpu, memory := round2 p.mem }) }
      uptime := time.uptime
      hostname := osInfo.hostname
      platform := osInfo.platform
      osInfo := osInfo.distro ++ " " ++ osInfo.release }

/-! ## Configuration loading — `src/config/settings.ts`
(`getDefaultConfig`, `loadConfig`). Parsed JSON is modelled structurally;
`loadConfig`'s merge `{ ...getDefaultConfig(), ...JSON.parse(data) }` is a
top-level (shallow) object spread. -/

/-- A JSON value, as `JSON.parse` returns one. -/
inductive Json where
  | null
  | bool (b : Bool)
  | num (q : ℚ)
  | str (s : String)
  | arr (xs : List Json)
  | obj (fields : List (String × Json))

/-- `getDefaultConfig` (settings.ts:59-94), as the top-level field list of
the returned object. -/
def getDefaultConfig : List (String × Json) :=
  [("whatsapp", .obj [("phoneNumber", .str ""), ("enabled", .bool false)]),
   ("email", .obj
     [("enabled", .bool false),
      ("smtp", .obj
        [("host", .str "smtp.gmail.com"), ("port", .num 587),
         ("secure", .bool false), ("user", .str ""), ("pass", .str "")]),
      ("to", .str "")]),
   ("monitoring", .obj
     [("intervalMs", .num 3600000), ("reportOnLogin", .bool true),
      ("reportOnSuspiciousActivity", .bool true)]),
   ("browserHistory", .obj
     [("startHour", .num 5), ("startMinute", .num 0), ("endHour", .num 19),
      ("endMinute", .num 30)]),
   ("alerts", .obj
     [("cpuThreshold", .num 90), ("ramThreshold", .num 90),
      ("diskThreshold", .num 90), ("failedLoginAttempts", .num 3)])]

/-- The key/value pairs a JS object spread `{...j}` contributes: an object's
own fields; a string or array contributes index keys; null, booleans and
numbers contribute nothing. -/
def jsonSpreadPairs : Json → List (String × Json)
  | .obj fields => fields
  | .str s => s.data.enum.map (fun p => (String.mk (natChars p.1), .str (String.mk [p.2])))
  | .arr xs => xs.enum.map (fun p => (String.mk (natChars p.1), p.2))
  | _ => []

/-- First value under key `k` (JSON objects from `JSON.parse` have unique
keys). -/
def lookupKey (k : String) : List (String × Json) → Option Json
  | [] => none
  | p :: rest => if p.1 = k then some p.2 else lookupKey k rest

/-- Does the field list carry key `k`? -/
def hasKeyB (k : String) (fields : List (String × Json)) : Bool :=
  fields.any (fun p => p.1 == k)

/-- JS `{...a, ...b}` on field lists: `a`'s keys in order, with `b`'s value
where `b` overrides, then `b`'s new keys. -/
def spreadObj (a b : List (String × Json)) : List (String × Json) :=
  a.map (fun p => (p.1, (lookupKey p.1 b).getD p.2)) ++
    b.filter (fun p => !hasKeyB p.1 a)

/-- The states the configuration file can be in, as `loadConfig` branches on
them: absent; present but unreadable (`readFileSync` throws); present but
malformed (`JSON.parse` throws); or parsed to a JSON value. -/
inductive ConfigFileState where
  | missing
  | unreadable
  | malformed
  | content (j : Json)

/-- Outcome of the UNGUARDED `ensureConfigDir()` call that `loadConfig`
makes first (settings.ts:106): `ensureConfigDir` (settings.ts:96-103) calls
`mkdirSync` outside any `try/catch`, which throws when the config or session
directory is absent and cannot be created (EACCES, EROFS, ENOSPC, ...). -/
inductive DirResult where
  | ok
  | mkdirError

/-- `loadConfig` (settings.ts:105-116), as the top-level field list of the
returned object, in `Except` because its first statement is the unguarded
`ensureConfigDir()`: if `mkdirSync` throws there, `loadConfig` throws too,
whatever the state of the file. Otherwise: the default configuration when
the file is missing, unreadable or malformed (the `existsSync` branch and
the `try/catch` around `readFileSync` + `JSON.parse`), else the shallow
spread of the default with the parsed value. -/
def loadConfig : DirResult → ConfigFileState → Except Unit (List (String × Json))
  | .mkdirError, _ => .error ()
  | .ok, .missing => .ok getDefaultConfig
  | .ok, .unreadable => .ok getDefaultConfig
  | .ok, .malformed => .ok getDefaultConfig
  | .ok, .content j => .ok (spreadObj getDefaultConfig (jsonSpreadPairs j))

/-! ## Scheduler — `src/index.ts` (`startMonitoring`, lines 486-488).
`setInterval(sendScheduledReport, intervalMs)` and
`setInterval(checkAndReport, 5 * 60 * 1000)` invoke their async callbacks on
every tick; the callbacks carry no in-flight flag, so an invocation begins
regardless of whether the previous one has finished (an async function
suspended at an `await` does not block the event loop). The state counts the
in-flight runs of each job. -/

/-- In-flight runs of the two periodic jobs of `startMonitoring`. -/
structure SchedState where
  slowInFlight : Nat
  fastInFlight : Nat

/-- What can happen to the scheduler: a timer tick fires a job's callback, or
an in-flight run completes. -/
inductive SchedEvent where
  | slowTick
  | fastTick
  | slowDone
  | fastDone

/-- One scheduler step. A tick starts a run of its job unconditionally —
index.ts:486-488 branch on nothing before invoking the callback. -/
def schedStep (s : SchedState) : SchedEvent → SchedState
  | .slowTick => { s with slowInFlight := s.slowInFlight + 1 }
  | .fastTick => { s with fastInFlight := s.fastInFlight + 1 }
  | .slowDone => { s with slowInFlight := s.slowInFlight - 1 }
  | .fastDone => { s with fastInFlight := s.fastInFlight - 1 }

/-- Run the scheduler over a sequence of events. -/
def schedRun (s : SchedState) (evs : List SchedEvent) : SchedState :=
  evs.foldl schedStep s

/-! ## Helper lemmas -/

theorem jsSet_mem_aux (x : String) (l : List String) : ∀ acc : List String,
    (x ∈ l.foldl (fun acc y => if y ∈ acc then acc else acc ++ [y]) acc ↔
      x ∈ acc ∨ x ∈ l) := by
  induction l with
  | nil => intro acc; simp
  | cons y t ih =>
    intro acc
    simp only [List.foldl_cons]
    rw [ih]
    by_cases hy : y ∈ acc
    · simp only [if_pos hy, List.mem_cons]
      constructor
      · rintro (h | h)
        · exact Or.inl h
        · exact Or.inr (Or.inr h)
      · rintro (h | rfl | h)
        · exact Or.inl h
        · exact Or.inl hy
        · exact Or.inr h
    · simp only [if_neg hy, List.mem_append, List.mem_singleton, List.mem_cons]
      tauto

theorem jsSet_mem (x : String) (l : List String) : x ∈ jsSet l ↔ x ∈ l := by
  unfold jsSet
  rw [jsSet_mem_aux]
  simp

theorem jsSet_nodup_aux (l : List String) : ∀ acc : List String, acc.Nodup →
    (l.foldl (fun acc y => if y ∈ acc then acc else acc ++ [y]) acc).Nodup := by
  induction l with
  | nil => intro acc h; simpa using h
  | cons y t ih =>
    intro acc h
    simp only [List.foldl_cons]
    apply ih
    by_cases hy : y ∈ acc
    · simpa [hy] using h
    · simp [hy, List.nodup_append, h]

theorem jsSet_nodup (l : List String) : (jsSet l).Nodup :=
  jsSet_nodup_aux l [] List.nodup_nil

/-! ## C1, C2 — the baseline tracker -/

/-- C1: after `initializeBaseline` on a snapshot with process names `ps1` and
`detectChanges` on a snapshot with process names `ps2` (both process
retrievals succeeding), the new-process events are exactly one per element of
`ps2 \ ps1` — no duplicates, no others — and the known-process baseline
afterwards equals exactly the set of `ps2` (replaced, not unioned). -/
theorem C1_baseline_diff (st0 : BaselineState) (ps1 ps2 : List String)
    (usb1 usb2 : List USBDevice) :
    ((detectChanges (initializeBaseline st0 (some ps1) usb1) (some ps2) usb2).1.1).Nodup ∧
    ((detectChanges (initializeBaseline st0 (some ps1) usb1) (some ps2) usb2).1.1).toFinset
      = ps2.toFinset \ ps1.toFinset ∧
    ((detectChanges (initializeBaseline st0 (some ps1) usb1) (some ps2) usb2).2).knownProcesses.toFinset
      = ps2.toFinset := by
  refine ⟨?_, ?_, ?_⟩
  · simp only [detectChanges, initializeBaseline]
    exact (jsSet_nodup ps2).filter _
  · simp only [detectChanges, initializeBaseline]
    ext a
    simp [List.mem_filter, jsSet_mem]
  · simp only [detectChanges, initializeBaseline]
    ext a
    simp [jsSet_mem]

/-- C2, failing input evaluated on the code: the USB half of the claim is a
code bug. `getUSBDevices` catches internally and always resolves, so a
failed USB retrieval reaches `detectChanges` as `usb = []` (never as a
throw); against a baseline that knows device `0781:5567`, the failure cycle
then returns no events but WIPES `knownUSBDevices` to the empty set, and the
next successful retrieval of that same, never-removed device manufactures a
false new-device event for it — exactly what the claim (and spec §7(c))
rules out. The process half behaves as claimed: `procs? = none` (the live
`si.processes()` catch) leaves `knownProcesses` untouched with no events,
shown here on the same failing cycle. -/
theorem C2_usb_baseline_wiped :
    ((detectChanges ⟨["init"], ["0781:5567"]⟩ none []).1.1 = [] ∧
      (detectChanges ⟨["init"], ["0781:5567"]⟩ none []).2.knownProcesses
        = ["init"]) ∧
    (detectChanges ⟨["init"], ["0781:5567"]⟩ none []).1.2 = [] ∧
    (detectChanges ⟨["init"], ["0781:5567"]⟩ none []).2.knownUSBDevices = [] ∧
    (detectChanges ((detectChanges ⟨["init"], ["0781:5567"]⟩ none []).2) none
        [⟨"SanDisk Cruzer", "SanDisk", "0781:5567", "usb"⟩]).1.2
      = [⟨"SanDisk Cruzer", "SanDisk", "0781:5567", "usb"⟩] :=
  ⟨⟨rfl, rfl⟩, rfl, rfl, rfl⟩

/-! ## C4 — scheduler overlap -/

/-- C4 counterexample: starting from the idle scheduler, a second tick of the
same periodic job arriving while the first run is still in flight (no
completion event in between) leaves TWO concurrent runs of that job — the
tick is not dropped, for the slow (scheduled-report) job and the fast
(suspicious/threshold check) job alike. -/
theorem C4_overlap_counterexample :
    (schedRun ⟨0, 0⟩ [SchedEvent.slowTick, SchedEvent.slowTick]).slowInFlight = 2 ∧
    (schedRun ⟨0, 0⟩ [SchedEvent.fastTick, SchedEvent.fastTick]).fastInFlight = 2 :=
  ⟨rfl, rfl⟩

/-- C4 amended: a tick of a periodic job unconditionally starts a new run of
that job — there is no in-flight guard, no skip and no queueing — so runs of
the same job may overlap; each job's tick leaves the other job's runs
untouched (the two timers are independent). -/
theorem C4_overlap_amended (s : SchedState) :
    (schedStep s .slowTick).slowInFlight = s.slowInFlight + 1 ∧
    (schedStep s .slowTick).fastInFlight = s.fastInFlight ∧
    (schedStep s .fastTick).fastInFlight = s.fastInFlight + 1 ∧
    (schedStep s .fastTick).slowInFlight = s.slowInFlight :=
  ⟨rfl, rfl, rfl, rfl⟩

/-! ## C9 — short reports go through unchunked -/

/-- C9: a report of at most 4000 characters is sent as exactly one message
whose body is the report unchanged (no `(i/N)` chunk header). -/
theorem C9_short_report (report : List Char) (h : report.length ≤ 4000) :
    sendReportToWhatsApp report = [report] := by
  simp [sendReportToWhatsApp, h]

/-- C9 witness at a concrete short report. -/
theorem C9_short_report_witness :
    "ok".data.length ≤ 4000 ∧ sendReportToWhatsApp "ok".data = ["ok".data] :=
  ⟨by decide, C9_short_report "ok".data (by decide)⟩

/-! ## C10 — configuration loading -/

theorem hasKeyB_spreadObj (k : String) (a b : List (String × Json))
    (h : hasKeyB k a = true) : hasKeyB k (spreadObj a b) = true := by
  unfold hasKeyB spreadObj
  simp only [List.any_append, List.any_map, Bool.or_eq_true]
  left
  unfold hasKeyB at h
  simpa [Function.comp] using h

/-- C10 counterexample: `loadConfig` is NOT total. Its first statement is
the unguarded `ensureConfigDir()`; when `mkdirSync` throws there (directory
absent and not creatable), `loadConfig` throws even though the configuration
file is merely missing — instead of returning the default configuration as
the claim states. -/
theorem C10_loadConfig_counterexample :
    loadConfig DirResult.mkdirError ConfigFileState.missing =
      Except.error () := rfl

/-- C10 amended: provided the unguarded `ensureConfigDir()` call succeeds
(the config and session directories exist or are created), `loadConfig` does
not throw: a missing, unreadable or malformed configuration file yields
exactly the default configuration, and whatever JSON the file parses to,
every top-level configuration section is present in the result (the shallow
spread starts from the full default object). If `mkdirSync` throws, the
exception propagates out of `loadConfig`. -/
theorem C10_loadConfig_defaults :
    loadConfig DirResult.ok ConfigFileState.missing = Except.ok getDefaultConfig ∧
    loadConfig DirResult.ok ConfigFileState.unreadable = Except.ok getDefaultConfig ∧
    loadConfig DirResult.ok ConfigFileState.malformed = Except.ok getDefaultConfig ∧
    ∀ j : Json,
      loadConfig DirResult.ok (ConfigFileState.content j) =
        Except.ok (spreadObj getDefaultConfig (jsonSpreadPairs j)) ∧
      hasKeyB "whatsapp" (spreadObj getDefaultConfig (jsonSpreadPairs j)) = true ∧
      hasKeyB "email" (spreadObj getDefaultConfig (jsonSpreadPairs j)) = true ∧
      hasKeyB "monitoring" (spreadObj getDefaultConfig (jsonSpreadPairs j)) = true ∧
      hasKeyB "browserHistory" (spreadObj getDefaultConfig (jsonSpreadPairs j)) = true ∧
      hasKeyB "alerts" (spreadObj getDefaultConfig (jsonSpreadPairs j)) = true := by
  refine ⟨rfl, rfl, rfl, fun j => ⟨rfl, ?_, ?_, ?_, ?_, ?_⟩⟩ <;>
    exact hasKeyB_spreadObj _ _ _ (by decide)

/-! ## C5, C6 — thresholds and per-category dispatch -/

theorem startsWithTag_append_self (t x : List Char) :
    startsWithTag t (t ++ x) = true := by
  induction t with
  | nil => rfl
  | cons a as ih => simp [startsWithTag, ih]

theorem sw_cpu_ram (x : List Char) : startsWithTag cpuTag (ramTag ++ x) = false := rfl

theorem sw_cpu_disk (x : List Char) : startsWithTag cpuTag (diskTag ++ x) = false := rfl

theorem sw_ram_cpu (x : List Char) : startsWithTag ramTag (cpuTag ++ x) = false := rfl

theorem sw_ram_disk (x : List Char) : startsWithTag ramTag (diskTag ++ x) = false := rfl

theorem sw_disk_cpu (x : List Char) : startsWithTag diskTag (cpuTag ++ x) = false := rfl

theorem sw_disk_ram (x : List Char) : startsWithTag diskTag (ramTag ++ x) = false := rfl

/-- C5: for each metric in {cpu, ram, disk}, the findings of one threshold
check that name that metric are exactly one — carrying the observed value —
when the usage strictly exceeds the configured threshold, and none otherwise
(in particular none when the usage equals the threshold). -/
theorem C5_threshold_boundary (numStr : ℚ → List Char) (cpu ram disk : ℚ)
    (cfg : AlertsConfig) :
    ((thresholdAlerts numStr cpu ram disk cfg).filter
        (fun s => startsWithTag cpuTag s) =
      if cpu > cfg.cpuThreshold then [cpuTag ++ numStr cpu ++ pctTag] else []) ∧
    ((thresholdAlerts numStr cpu ram disk cfg).filter
        (fun s => startsWithTag ramTag s) =
      if ram > cfg.ramThreshold then [ramTag ++ numStr ram ++ pctTag] else []) ∧
    ((thresholdAlerts numStr cpu ram disk cfg).filter
        (fun s => startsWithTag diskTag s) =
      if disk > cfg.diskThreshold then [diskTag ++ numStr disk ++ pctTag] else []) := by
  unfold thresholdAlerts
  by_cases hc : cpu > cfg.cpuThreshold <;> by_cases hr : ram > cfg.ramThreshold <;>
    by_cases hd : disk > cfg.diskThreshold <;>
    simp [hc, hr, hd, List.filter_append, List.append_assoc,
      startsWithTag_append_self, sw_cpu_ram, sw_cpu_disk, sw_ram_cpu, sw_ram_disk,
      sw_disk_cpu, sw_disk_ram]

/-- C6: one check cycle sends at most one message per category — at most two
messages in all — and when the suspicious report is enabled and both
categories carry findings, it sends exactly the two joined messages: one
suspicious message joining all suspicious findings, one threshold message
joining all threshold findings (never one message per finding). -/
theorem C6_dedup_per_category (numStr : ℚ → List Char) (now : List Char)
    (ros : Bool) (suspicious : List (List Char)) (cpu ram disk : ℚ)
    (cfg : AlertsConfig) :
    (checkAndReportMessages numStr now ros suspicious cpu ram disk cfg).length ≤ 2 ∧
    (ros = true → suspicious ≠ [] → thresholdAlerts numStr cpu ram disk cfg ≠ [] →
      checkAndReportMessages numStr now ros suspicious cpu ram disk cfg =
        [generateAlertMessage now .suspicious (joinLines suspicious),
          generateAlertMessage now .threshold
            (joinLines (thresholdAlerts numStr cpu ram disk cfg))]) := by
  constructor
  · unfold checkAndReportMessages
    split_ifs <;> simp <;> split_ifs <;> simp
  · intro hros hsus hthr
    have h1 : (ros && decide (suspicious.length > 0)) = true := by
      simp [hros, List.length_pos.mpr hsus]
    have h2 : (thresholdAlerts numStr cpu ram disk cfg).length > 0 :=
      List.length_pos.mpr hthr
    simp [checkAndReportMessages, h1, h2]

/-- C6 witness: a cycle with five suspicious findings and two threshold
findings (cpu and ram above a 90 threshold, disk below) sends exactly two
messages. -/
theorem C6_dedup_witness :
    (checkAndReportMessages (fun _ => []) [] true
      ["s1".data, "s2".data, "s3".data, "s4".data, "s5".data] 95 95 10
      ⟨90, 90, 90⟩).length = 2 := by
  rw [(C6_dedup_per_category (fun _ => []) [] true
      ["s1".data, "s2".data, "s3".data, "s4".data, "s5".data] 95 95 10
      ⟨90, 90, 90⟩).2 rfl (by decide) (by decide)]
  rfl

/-! ## C7 — crypto-miner check -/

theorem toLower_searchIndexer :
    toLowerStr "SearchIndexer".data = "searchindexer".data := by decide

theorem minerMatch_eq_amended (p : List Char) :
    minerMatch p = amendedMinerMatch p := by
  unfold minerMatch amendedMinerMatch minerSignatureHit
  by_cases hsafe :
      safeMiners.any (fun safe => containsSub (toLowerStr safe) (toLowerStr p)) = true
  · simp [hsafe]
  · rw [Bool.not_eq_true] at hsafe
    have hsi : containsSub "searchindexer".data (toLowerStr p) = false := by
      simp only [safeMiners, List.any_cons, List.any_nil, Bool.or_eq_false_iff] at hsafe
      have := hsafe.2.2.2.1
      rwa [toLower_searchIndexer] at this
    simp [hsafe, hsi]

/-- C7 counterexample: the process name `minertracker` contains the
signature `miner` and is matched by none of the safe-allowlist entries
(`tracker-miner-fs`, `tracker-miner-fs-3`, `tracker-miner`,
`SearchIndexer`), so under the claim's reading a finding is due — yet the
code emits no finding, because its `miner` branch additionally rejects any
name containing `tracker`. -/
theorem C7_miner_counterexample :
    claimMinerMatch "minertracker".data = true ∧
    cryptoMinerFindings ["minertracker".data] = [] := by
  constructor
  · decide
  · decide

/-- C7 amended: the check emits a crypto-miner finding exactly when some
process's lowercased name is not matched by the safe allowlist AND either
contains one of the signatures xmr, monero, ethminer, cgminer, bfgminer,
nicehash, or contains the signature miner while not containing tracker; when
emitted, the finding names exactly the offending processes, joined in list
order. -/
theorem C7_miner_amended (procNames : List (List Char)) :
    cryptoMinerFindings procNames =
      (if procNames.filter amendedMinerMatch = [] then []
       else ["Potential crypto miner processes: ".data ++
          joinSep ", ".data (procNames.filter amendedMinerMatch)]) ∧
    (cryptoMinerFindings procNames ≠ [] ↔
      ∃ p ∈ procNames, amendedMinerMatch p = true) := by
  have hf : procNames.filter minerMatch = procNames.filter amendedMinerMatch :=
    List.filter_congr (fun p _ => minerMatch_eq_amended p)
  have hmain : cryptoMinerFindings procNames =
      (if procNames.filter amendedMinerMatch = [] then []
       else ["Potential crypto miner processes: ".data ++
          joinSep ", ".data (procNames.filter amendedMinerMatch)]) := by
    unfold cryptoMinerFindings
    rw [hf]
    cases h : procNames.filter amendedMinerMatch <;> simp [h]
  refine ⟨hmain, ?_⟩
  rw [hmain]
  constructor
  · intro hne
    have hfil : procNames.filter amendedMinerMatch ≠ [] := by
      intro h0
      simp [h0] at hne
    obtain ⟨p, hp⟩ := List.exists_mem_of_ne_nil _ hfil
    exact ⟨p, (List.mem_filter.mp hp).1, (List.mem_filter.mp hp).2⟩
  · rintro ⟨p, hp, hm⟩
    have hmem : p ∈ procNames.filter amendedMinerMatch :=
      List.mem_filter.mpr ⟨hp, hm⟩
    have hfil : procNames.filter amendedMinerMatch ≠ [] := by
      intro h0
      rw [h0] at hmem
      exact List.not_mem_nil p hmem
    simp [hfil]

/-! ## C3 — message chunking -/

theorem splitLines_cons_eq (c : Char) {rest l : List Char} {ls : List (List Char)}
    (h : splitLines rest = l :: ls) :
    splitLines (c :: rest) = if c = '\n' then [] :: l :: ls else (c :: l) :: ls := by
  simp only [splitLines, h]

theorem splitLines_ne_nil (s : List Char) : splitLines s ≠ [] := by
  induction s with
  | nil => simp [splitLines]
  | cons c rest ih =>
    obtain ⟨l, ls, h⟩ : ∃ l ls, splitLines rest = l :: ls := by
      cases hr : splitLines rest with
      | nil => exact absurd hr ih
      | cons l ls => exact ⟨l, ls, rfl⟩
    rw [splitLines_cons_eq c h]
    by_cases hc : c = '\n' <;> simp [hc]

theorem splitLines_cons_ex (s : List Char) : ∃ l ls, splitLines s = l :: ls := by
  cases h : splitLines s with
  | nil => exact absurd h (splitLines_ne_nil s)
  | cons l ls => exact ⟨l, ls, rfl⟩

theorem joinLines_cons_of_ne (x : List Char) (xs : List (List Char)) (h : xs ≠ []) :
    joinLines (x :: xs) = x ++ '\n' :: joinLines xs := by
  cases xs with
  | nil => exact absurd rfl h
  | cons y ys => rfl

theorem joinLines_glue (a b : List Char) (rest : List (List Char)) :
    joinLines ((a ++ '\n' :: b) :: rest) = joinLines (a :: b :: rest) := by
  cases rest with
  | nil => rfl
  | cons m ms => simp [joinLines, List.append_assoc]

theorem joinLines_splitLines (s : List Char) : joinLines (splitLines s) = s := by
  induction s with
  | nil => rfl
  | cons c rest ih =>
    obtain ⟨l, ls, h⟩ := splitLines_cons_ex rest
    rw [h] at ih
    rw [splitLines_cons_eq c h]
    by_cases hc : c = '\n'
    · rw [if_pos hc, joinLines_cons_of_ne _ _ (by simp)]
      simp [ih, hc]
    · rw [if_neg hc]
      cases ls with
      | nil =>
        simp only [joinLines] at ih ⊢
        rw [ih]
      | cons m ms =>
        rw [joinLines_cons_of_ne _ _ (by simp)]
        rw [joinLines_cons_of_ne _ _ (by simp)] at ih
        simp [List.cons_append, ih]

theorem splitLines_no_newline (s : List Char) : ∀ l ∈ splitLines s, '\n' ∉ l := by
  induction s with
  | nil =>
    intro l hl
    simp [splitLines] at hl
    simp [hl]
  | cons c rest ih =>
    obtain ⟨m, ms, h⟩ := splitLines_cons_ex rest
    rw [h] at ih
    intro l hl
    rw [splitLines_cons_eq c h] at hl
    by_cases hc : c = '\n'
    · rw [if_pos hc] at hl
      rcases List.mem_cons.mp hl with rfl | hl2
      · simp
      · exact ih l hl2
    · rw [if_neg hc] at hl
      rcases List.mem_cons.mp hl with rfl | hl2
      · intro hmem
        rcases List.mem_cons.mp hmem with he | hm
        · exact hc he.symm
        · exact ih m (by simp) hm
      · exact ih l (List.mem_cons_of_mem _ hl2)

theorem splitLines_of_no_newline (l : List Char) (h : '\n' ∉ l) :
    splitLines l = [l] := by
  induction l with
  | nil => rfl
  | cons c rest ih =>
    have hc : ¬ c = '\n' := by
      intro e
      subst e
      exact h (List.mem_cons_self _ _)
    have hr : '\n' ∉ rest := fun e => h (List.mem_cons_of_mem _ e)
    rw [splitLines_cons_eq c (ih hr), if_neg hc]

theorem splitLines_append (a b : List Char) :
    splitLines (a ++ '\n' :: b) = splitLines a ++ splitLines b := by
  induction a with
  | nil =>
    obtain ⟨m, ms, h⟩ := splitLines_cons_ex b
    rw [List.nil_append, splitLines_cons_eq '\n' h, if_pos rfl, h]
    rfl
  | cons c a2 ih =>
    obtain ⟨m, ms, h2⟩ := splitLines_cons_ex a2
    have hih : splitLines (a2 ++ '\n' :: b) = m :: (ms ++ splitLines b) := by
      rw [ih, h2]
      rfl
    rw [List.cons_append, splitLines_cons_eq c hih, splitLines_cons_eq c h2]
    by_cases hc : c = '\n' <;> simp [hc]

theorem splitMessageGo_ne_nil (maxLength : Nat) : ∀ (ls : List (List Char))
    (cp : List Char), cp ≠ [] → splitMessageGo maxLength ls cp ≠ [] := by
  intro ls
  induction ls with
  | nil =>
    intro cp h
    simp [splitMessageGo, h]
  | cons line rest ih =>
    intro cp h
    simp only [splitMessageGo]
    split_ifs with h1
    · simp
    · exact ih _ (by simp)

theorem splitMessageGo_join (maxLength : Nat) : ∀ (ls : List (List Char)),
    (∀ l ∈ ls, l ≠ []) → ∀ cp : List Char, cp ≠ [] →
    joinLines (splitMessageGo maxLength ls cp) = joinLines (cp :: ls) := by
  intro ls
  induction ls with
  | nil =>
    intro _ cp h
    simp [splitMessageGo, h]
  | cons line rest ih =>
    intro hls cp hcp
    have hline : line ≠ [] := hls line (by simp)
    have hrest : ∀ l ∈ rest, l ≠ [] := fun l hl => hls l (by simp [hl])
    simp only [splitMessageGo]
    split_ifs with h1
    · rw [joinLines_cons_of_ne _ _ (splitMessageGo_ne_nil maxLength rest line hline),
        ih hrest line hline,
        joinLines_cons_of_ne _ _ (by simp : (line :: rest : List (List Char)) ≠ [])]
    · rw [ih hrest _ (by simp : (cp ++ '\n' :: line : List Char) ≠ [])]
      exact joinLines_glue cp line rest

theorem splitMessageGo_bound (maxLength : Nat) : ∀ (ls : List (List Char)),
    (∀ l ∈ ls, l.length < maxLength) → ∀ cp : List Char, cp.length ≤ maxLength →
    ∀ part ∈ splitMessageGo maxLength ls cp, part.length ≤ maxLength := by
  intro ls
  induction ls with
  | nil =>
    intro _ cp hcp part hp
    by_cases h : cp = []
    · simp [splitMessageGo, h] at hp
    · simp only [splitMessageGo, if_neg h, List.mem_singleton] at hp
      exact hp ▸ hcp
  | cons line rest ih =>
    intro hls cp hcp part hp
    have hline := hls line (by simp)
    have hrest : ∀ l ∈ rest, l.length < maxLength := fun l hl => hls l (by simp [hl])
    simp only [splitMessageGo] at hp
    split_ifs at hp with h1 h2
    · exact ih hrest line (le_of_lt hline) part hp
    · rcases List.mem_cons.mp hp with rfl | hp2
      · exact hcp
      · exact ih hrest line (le_of_lt hline) part hp2
    · exact ih hrest line (le_of_lt hline) part hp
    · refine ih hrest _ ?_ part hp
      simp only [List.length_append, List.length_cons]
      omega

theorem splitMessageGo_lines (maxLength : Nat) : ∀ (ls : List (List Char)),
    (∀ l ∈ ls, '\n' ∉ l) → (∀ l ∈ ls, l ≠ []) → ∀ cp : List Char, cp ≠ [] →
    ((splitMessageGo maxLength ls cp).map splitLines).flatten = splitLines cp ++ ls := by
  intro ls
  induction ls with
  | nil =>
    intro _ _ cp h
    simp [splitMessageGo, h]
  | cons line rest ih =>
    intro hnl hne cp hcp
    have hlinenl : '\n' ∉ line := hnl line (by simp)
    have hlinene : line ≠ [] := hne line (by simp)
    have hrestnl : ∀ l ∈ rest, '\n' ∉ l := fun l hl => hnl l (by simp [hl])
    have hrestne : ∀ l ∈ rest, l ≠ [] := fun l hl => hne l (by simp [hl])
    simp only [splitMessageGo]
    split_ifs with h1
    · simp only [List.map_cons, List.flatten_cons]
      rw [ih hrestnl hrestne line hlinene, splitLines_of_no_newline line hlinenl]
      simp
    · rw [ih hrestnl hrestne _ (by simp : (cp ++ '\n' :: line : List Char) ≠ []),
        splitLines_append, splitLines_of_no_newline line hlinenl]
      simp

theorem splitMessageGo_start (maxLength : Nat) (l : List Char)
    (ls : List (List Char)) :
    splitMessageGo maxLength (l :: ls) [] = splitMessageGo maxLength ls l := by
  simp only [splitMessageGo]
  split_ifs <;> simp_all

/-- C3 counterexample: for the 4003-character message that is a newline
followed by a single 4001-character line, `splitMessage · 4000` (as
`sendReportToWhatsApp` calls it) produces one piece that EXCEEDS the
4000-character limit (an over-long line is emitted whole), and rejoining the
pieces with newlines does NOT reproduce the message (the leading empty line
is dropped) — refuting both the within-limit and the round-trip parts of the
claim. -/
theorem C3_split_counterexample :
    ('\n' :: List.replicate 4001 'a').length > 4000 ∧
    splitMessage ('\n' :: List.replicate 4001 'a') 4000 =
      [List.replicate 4001 'a'] ∧
    (∃ part ∈ splitMessage ('\n' :: List.replicate 4001 'a') 4000,
      part.length > 4000) ∧
    joinLines (splitMessage ('\n' :: List.replicate 4001 'a') 4000) ≠
      '\n' :: List.replicate 4001 'a' := by
  have hnl : '\n' ∉ List.replicate 4001 'a' := by
    intro hm
    exact absurd (List.eq_of_mem_replicate hm) (by decide)
  have hrne : List.replicate 4001 'a' ≠ ([] : List Char) := by
    intro h0
    have hl0 := congrArg List.length h0
    simp only [List.length_replicate, List.length_nil] at hl0
    omega
  have hsl : splitLines ('\n' :: List.replicate 4001 'a') =
      [[], List.replicate 4001 'a'] := by
    have he : ('\n' :: List.replicate 4001 'a' : List Char) =
        [] ++ '\n' :: List.replicate 4001 'a' := rfl
    rw [he, splitLines_append, splitLines_of_no_newline _ hnl]
    rfl
  have hmsg : splitMessage ('\n' :: List.replicate 4001 'a') 4000 =
      [List.replicate 4001 'a'] := by
    unfold splitMessage
    rw [hsl, splitMessageGo_start]
    have hcond : ([] : List Char).length + 1 + (List.replicate 4001 'a').length
        > 4000 := by
      simp only [List.length_nil, List.length_replicate]
      omega
    simp only [splitMessageGo, if_pos hcond, if_pos rfl, if_neg hrne]
    exact if_pos trivial
  refine ⟨?_, hmsg, ⟨List.replicate 4001 'a', ?_, ?_⟩, ?_⟩
  · simp only [List.length_cons, List.length_replicate]
    omega
  · rw [hmsg]
    exact List.mem_singleton_self _
  · simp only [List.length_replicate]
    omega
  · rw [hmsg]
    intro he
    have hlen := congrArg List.length he
    simp only [joinLines, List.length_cons, List.length_replicate] at hlen
    omega

/-- C3 amended: for every message longer than 4000 characters in which every
line is nonempty and shorter than 4000 characters, `splitMessage · 4000`
produces pieces each within 4000 characters, splits only at line boundaries
(the lines of the pieces, concatenated in order, are exactly the lines of
the message), and joining the pieces in order with newlines reproduces the
original message exactly. -/
theorem C3_split_amended (msg : List Char) (hlong : msg.length > 4000)
    (hlines : ∀ l ∈ splitLines msg, l ≠ [] ∧ l.length < 4000) :
    (∀ part ∈ splitMessage msg 4000, part.length ≤ 4000) ∧
    ((splitMessage msg 4000).map splitLines).flatten = splitLines msg ∧
    joinLines (splitMessage msg 4000) = msg := by
  obtain ⟨l, ls, h⟩ := splitLines_cons_ex msg
  have hl := hlines l (by rw [h]; simp)
  have hlsne : ∀ x ∈ ls, x ≠ [] := fun x hx => (hlines x (by rw [h]; simp [hx])).1
  have hlslt : ∀ x ∈ ls, x.length < 4000 :=
    fun x hx => (hlines x (by rw [h]; simp [hx])).2
  have hnl : ∀ x ∈ splitLines msg, '\n' ∉ x := splitLines_no_newline msg
  have hlnl : '\n' ∉ l := hnl l (by rw [h]; simp)
  have hlsnl : ∀ x ∈ ls, '\n' ∉ x := fun x hx => hnl x (by rw [h]; simp [hx])
  have hstart : splitMessage msg 4000 = splitMessageGo 4000 ls l := by
    unfold splitMessage
    rw [h, splitMessageGo_start]
  refine ⟨?_, ?_, ?_⟩
  · rw [hstart]
    exact splitMessageGo_bound 4000 ls hlslt l (le_of_lt hl.2)
  · rw [hstart, splitMessageGo_lines 4000 ls hlsnl hlsne l hl.1,
      splitLines_of_no_newline l hlnl, h]
    rfl
  · rw [hstart, splitMessageGo_join 4000 ls hlsne l hl.1, ← h, joinLines_splitLines]

/-- C3 witness: a 6001-character message of two 3000-character lines
satisfies the amended hypotheses, and rejoining its pieces reproduces it. -/
theorem C3_split_amended_witness :
    (List.replicate 3000 'a' ++ '\n' :: List.replicate 3000 'a').length > 4000 ∧
    (∀ l ∈ splitLines (List.replicate 3000 'a' ++ '\n' :: List.replicate 3000 'a'),
      l ≠ [] ∧ l.length < 4000) ∧
    joinLines (splitMessage
        (List.replicate 3000 'a' ++ '\n' :: List.replicate 3000 'a') 4000) =
      List.replicate 3000 'a' ++ '\n' :: List.replicate 3000 'a' := by
  have hnl : '\n' ∉ List.replicate 3000 'a' := by
    intro hm
    exact absurd (List.eq_of_mem_replicate hm) (by decide)
  have hrne : List.replicate 3000 'a' ≠ ([] : List Char) := by
    intro h0
    have hl0 := congrArg List.length h0
    simp only [List.length_replicate, List.length_nil] at hl0
    omega
  have hsl : splitLines (List.replicate 3000 'a' ++ '\n' :: List.replicate 3000 'a') =
      [List.replicate 3000 'a', List.replicate 3000 'a'] := by
    rw [splitLines_append, splitLines_of_no_newline _ hnl]
    rfl
  have h1 : (List.replicate 3000 'a' ++ '\n' :: List.replicate 3000 'a').length
      > 4000 := by
    simp only [List.length_append, List.length_cons, List.length_replicate]
    omega
  have h2 : ∀ l ∈ splitLines (List.replicate 3000 'a' ++ '\n' ::
      List.replicate 3000 'a'), l ≠ [] ∧ l.length < 4000 := by
    rw [hsl]
    intro l hl
    rcases List.mem_cons.mp hl with rfl | hl2
    · exact ⟨hrne, by simp only [List.length_replicate]; omega⟩
    · rcases List.mem_cons.mp hl2 with rfl | hl3
      · exact ⟨hrne, by simp only [List.length_replicate]; omega⟩
      · exact absurd hl3 (List.not_mem_nil _)
  exact ⟨h1, h2, (C3_split_amended _ h1 h2).2.2⟩

/-! ## C8 — snapshot provider failure isolation -/

/-- C8 counterexample: `getSystemStats` has no `try/catch`, so when the
process enumeration (one sub-source of the snapshot) throws while all nine
other calls succeed, the WHOLE call fails instead of returning a snapshot
with an empty process field — refuting "the whole call never fails because
one sub-source failed". -/
theorem C8_getSystemStats_counterexample :
    getSystemStats
      { currentLoad := Except.ok ⟨50⟩, cpuTemperature := Except.ok ⟨none⟩,
        cpu := Except.ok ⟨4, "intel", "i7"⟩, mem := Except.ok ⟨8, 4, 4⟩,
        fsSize := Except.ok [], networkInterfaces := Except.ok (some []),
        networkConnections := Except.ok (some []),
        processes := Except.error (),
        osInfo := Except.ok ⟨"host", "linux", "debian", "12"⟩,
        time := Except.ok ⟨100⟩ } = Except.error () := rfl

/-- C8 amended: `getSystemStats` returns a well-formed snapshot whenever all
ten underlying calls resolve, even on degenerate data — a missing process
list or non-array network data leaves the affected fields empty — but an
exception from any one of the calls propagates and fails the whole call
(there is no per-sub-source isolation inside `getSystemStats`). -/
theorem C8_getSystemStats_amended (inp : SIInputs)
    (cl : CurrentLoadData) (ct : CpuTempData) (ci : CpuInfoData) (m : MemData)
    (fs : List FsSizeEntry) (ni : Option (List NetIfaceData))
    (nc : Option (List NetConnData)) (pr : ProcessesData) (os : OsInfoData)
    (tm : TimeData)
    (h1 : inp.currentLoad = Except.ok cl) (h2 : inp.cpuTemperature = Except.ok ct)
    (h3 : inp.cpu = Except.ok ci) (h4 : inp.mem = Except.ok m)
    (h5 : inp.fsSize = Except.ok fs) (h6 : inp.networkInterfaces = Except.ok ni)
    (h7 : inp.networkConnections = Except.ok nc) (h8 : inp.processes = Except.ok pr)
    (h9 : inp.osInfo = Except.ok os) (h10 : inp.time = Except.ok tm) :
    ∃ stats, getSystemStats inp = Except.ok stats ∧
      (pr.list = none →
        stats.processes.topCpu = [] ∧ stats.processes.topMemory = []) ∧
      (ni = none → stats.network.interfaces = []) ∧
      (nc = none → stats.network.connections = []) := by
  have hinp : inp =
      { currentLoad := Except.ok cl, cpuTemperature := Except.ok ct,
        cpu := Except.ok ci, mem := Except.ok m, fsSize := Except.ok fs,
        networkInterfaces := Except.ok ni, networkConnections := Except.ok nc,
        processes := Except.ok pr, osInfo := Except.ok os,
        time := Except.ok tm } := by
    cases inp
    simp_all
  subst hinp
  refine ⟨_, rfl, ?_, ?_, ?_⟩
  · intro hnone
    constructor <;> simp [getSystemStats, hnone]
  · intro hnone
    simp [getSystemStats, hnone]
  · intro hnone
    simp [getSystemStats, hnone]

/-- C8 witness: with every call resolving, the process list missing and both
network results non-arrays, the snapshot is returned whole with those fields
empty. -/
theorem C8_getSystemStats_witness :
    ∃ stats,
      getSystemStats
        { currentLoad := Except.ok ⟨50⟩, cpuTemperature := Except.ok ⟨none⟩,
          cpu := Except.ok ⟨4, "intel", "i7"⟩, mem := Except.ok ⟨8, 4, 4⟩,
          fsSize := Except.ok [], networkInterfaces := Except.ok none,
          networkConnections := Except.ok none,
          processes := Except.ok ⟨10, 2, none⟩,
          osInfo := Except.ok ⟨"host", "linux", "debian", "12"⟩,
          time := Except.ok ⟨100⟩ } = Except.ok stats ∧
      (stats.processes.topCpu = [] ∧ stats.processes.topMemory = []) ∧
      stats.network.interfaces = [] ∧ stats.network.connections = [] := by
  obtain ⟨stats, hok, hp, hi, hc⟩ :=
    C8_getSystemStats_amended
      { currentLoad := Except.ok ⟨50⟩, cpuTemperature := Except.ok ⟨none⟩,
        cpu := Except.ok ⟨4, "intel", "i7"⟩, mem := Except.ok ⟨8, 4, 4⟩,
        fsSize := Except.ok [], networkInterfaces := Except.ok none,
        networkConnections := Except.ok none,
        processes := Except.ok ⟨10, 2, none⟩,
        osInfo := Except.ok ⟨"host", "linux", "debian", "12"⟩,
        time := Except.ok ⟨100⟩ }
      ⟨50⟩ ⟨none⟩ ⟨4, "intel", "i7"⟩ ⟨8, 4, 4⟩ []
      none none ⟨10, 2, none⟩ ⟨"host", "linux", "debian", "12"⟩ ⟨100⟩
      rfl rfl rfl rfl rfl rfl rfl rfl rfl rfl
  exact ⟨stats, hok, hp rfl, hi rfl, hc rfl⟩
